import Mathlib

/-!
Verification development for the Bantu-Os repository.

Shallow embedding of the four core components described in the spec:
the natural-language time parser (`scheduling_agent.py`), the action
interpreter and tool dispatch (`agent_manager.py`), the retrieval memory
(`vector_db.py` / `memory.py`) and the kernel orchestration
(`kernel.py`), together with theorems settling the frozen claims.

Modelling conventions:
- Python strings are modelled as `List Char`; only ASCII text semantics
  are modelled (the string operations of the repository are used on
  ASCII inputs).
- Python exceptions are modelled with `Except String`; an `.error`
  value corresponds to an uncaught exception propagating to the caller.
- Numeric vector arithmetic is modelled over `ℚ` (exact arithmetic;
  IEEE-754 rounding of `numpy` is idealised away, NaN from division by a
  zero norm is modelled explicitly).
-/

namespace Bantu

abbrev Chars := List Char

/-- Python `\s` / `str.strip` whitespace, ASCII fragment. -/
def isPySpace (c : Char) : Bool :=
  c = ' ' || c = '\t' || c = '\n' || c = '\r' || c = '\x0b' || c = '\x0c'

/-- ASCII decimal digit. -/
def isDigitC (c : Char) : Bool :=
  '0' ≤ c && c ≤ '9'

/-- Python `str.strip()`. -/
def pyStrip (l : Chars) : Chars :=
  ((l.dropWhile (fun c => isPySpace c)).reverse.dropWhile (fun c => isPySpace c)).reverse

/-- Python `str.startswith`. -/
def startsWithL : Chars → Chars → Bool
  | _, [] => true
  | [], _ :: _ => false
  | c :: cs, d :: ds => c = d && startsWithL cs ds

/-- Numeric value of an ASCII digit. -/
def digitVal (c : Char) : Nat :=
  c.toNat - '0'.toNat

/-- Python `int(...)` on a nonempty string of digits. -/
def natOfDigits (l : Chars) : Nat :=
  l.foldl (fun n c => n * 10 + digitVal c) 0

/-! ## `scheduling_agent.py`: module-level regex compilation

The module compiles four patterns with `re.compile` at import time
(lines 87-90).  In a conditional group `(?(...)...)` CPython `re`
accepts only a group number or name, but the `HHMM` pattern of line
88, `\b(?P<hour>\d{1,2}):(?(?=\d{2})\d{2})\b`, puts a lookahead there,
so its compilation raises `re.error` and the import of the module
fails before `parse_natural_time` is even defined: no call of the
parser is program behaviour.  The model below embeds the group-name
validation of CPython `sre_parse` that decides compilation of these
four patterns: `(?P<name>` requires an identifier read up to `>`,
`(?(cond)` requires an identifier or a number read up to `)` (else
`bad character in group name %r`), escapes and character classes are
skipped, and the remaining constructs appearing in these patterns are
accepted.  The `.error` payload is the message of the raised
`re.error` (its `msg` attribute; the `at position N` suffix that
`str(e)` appends is omitted). -/

/-- A CPython `datetime.datetime` value: the result type
`parse_natural_time` would return if its module could load. -/
structure PyDateTime where
  year : Nat
  month : Nat
  day : Nat
  hour : Nat
  minute : Nat
  second : Nat
  usec : Nat
deriving DecidableEq, Repr

/-- Python `str.isidentifier` (ASCII fragment). -/
def isIdentifierL (l : Chars) : Bool :=
  match l with
  | [] => false
  | c :: cs => (c.isAlpha || c = '_') && cs.all (fun d => d.isAlpha || isDigitC d || d = '_')

/-- A nonempty all-digit name (the group-number alternative accepted in
a conditional). -/
def isNumberNameL (l : Chars) : Bool :=
  !l.isEmpty && l.all (fun c => isDigitC c)

/-- Python `repr` of a short name as interpolated by
`"bad character in group name %r"`: single quotes around the text,
each backslash doubled (no other escapes occur in these names). -/
def pyReprName (l : Chars) : String :=
  String.mk ('\x27' :: (l.flatMap (fun c => if c = '\\' then ['\\', '\\'] else [c])) ++ ['\x27'])

/-- Skip a character class after `[`, up to the closing `]`
(`none` if unterminated). -/
def skipClass : Chars → Option Chars
  | [] => none
  | '\\' :: _ :: rest => skipClass rest
  | ']' :: rest => some rest
  | _ :: rest => skipClass rest

/-- `source.getuntil(t)` of `sre_parse`: the raw characters up to the
terminator, and the rest after it. -/
def getUntilCh (t : Char) : Chars → Option (Chars × Chars)
  | [] => none
  | c :: rest =>
    if c = t then some ([], rest)
    else
      match getUntilCh t rest with
      | some (name, rest') => some (c :: name, rest')
      | none => none

/-- The group-construct validation of CPython `sre_parse`, specialised
to the constructs appearing in the four patterns of
`scheduling_agent.py`.  The fuel bounds the scan; at least one
character is consumed per step, so `length + 1` is ample. -/
def reScan : Nat → Chars → Except String Unit
  | 0, _ => .error "pattern scan fuel exhausted"
  | _ + 1, [] => .ok ()
  | fuel + 1, '(' :: '?' :: 'P' :: '<' :: rest =>
    (match getUntilCh '>' rest with
     | some (name, rest') =>
       if isIdentifierL name then reScan fuel rest'
       else .error ("bad character in group name " ++ pyReprName name)
     | none => .error "missing >, unterminated name")
  | fuel + 1, '(' :: '?' :: '(' :: rest =>
    (match getUntilCh ')' rest with
     | some (condname, rest') =>
       if isIdentifierL condname || isNumberNameL condname then reScan fuel rest'
       else .error ("bad character in group name " ++ pyReprName condname)
     | none => .error "missing ), unterminated name")
  | fuel + 1, '[' :: rest =>
    (match skipClass rest with
     | some rest' => reScan fuel rest'
     | none => .error "unterminated character set")
  | fuel + 1, '\\' :: _ :: rest => reScan fuel rest
  | fuel + 1, _ :: rest => reScan fuel rest

/-- `re.compile(p)` reduced to success / `re.error` message for the
patterns at hand. -/
def reCompileCheck (p : String) : Except String Unit :=
  reScan (p.toList.length + 1) p.toList

/-- The `AMPM` pattern source (line 87). -/
def ampmPatternSrc : String :=
  "\\b(?P<hour>1[0-2]|0?[1-9])\\s*(?P<ampm>am|pm)\\b"

/-- The `HHMM` pattern source (line 88). -/
def hhmmPatternSrc : String :=
  "\\b(?P<hour>\\d\x7b1,2\x7d):(?(?=\\d\x7b2\x7d)\\d\x7b2\x7d)\\b"

/-- The `IN_X` pattern source (line 89). -/
def inXPatternSrc : String :=
  "\\bin\\s+(?P<num>\\d+)\\s+(?P<unit>minute|minutes|hour|hours)\\b"

/-- The `DATE_TIME` pattern source (line 90). -/
def dateTimePatternSrc : String :=
  "\\b(?P<date>\\d\x7b4\x7d-\\d\x7b2\x7d-\\d\x7b2\x7d)\\s+(?P<time>\\d\x7b1,2\x7d:\\d\x7b2\x7d)\\b"

/-- The `re.error` message raised for the `HHMM` pattern: the
condition read up to the closing parenthesis is `?=\d{2}`, neither an
identifier nor a number (`%r` doubles its backslash). -/
def hhmmCompileErr : String :=
  "bad character in group name \x27?=\\\\d\x7b2\x7d\x27"

/-- Importing `bantu_os.agents.scheduling_agent`: the module-level
statements compile the four patterns in source order; the first
`re.error` aborts the import. -/
def schedulingAgentImport : Except String Unit :=
  match reCompileCheck ampmPatternSrc with
  | .error e => .error e
  | .ok _ =>
    match reCompileCheck hhmmPatternSrc with
    | .error e => .error e
    | .ok _ =>
      match reCompileCheck inXPatternSrc with
      | .error e => .error e
      | .ok _ =>
        match reCompileCheck dateTimePatternSrc with
        | .error e => .error e
        | .ok _ => .ok ()

/-- Running any code of the scheduling module first requires its
import; a failing import raises to the caller before the body can
run. -/
def importThen {α : Type} (body : Unit → Except String α) : Except String α :=
  match schedulingAgentImport with
  | .error e => .error e
  | .ok _ => body ()

/-! ## JSON values and `json.loads`

Python's `json` module decodes UTF-8 JSON text into dicts / lists /
strings / numbers / booleans / `None`.  Numbers are modelled over `ℚ`
(the `int` / `float` distinction and IEEE-754 rounding of the decoder
are not observable in any claim).  Duplicate object keys follow Python
dict semantics: the last value wins, the first position is kept. -/

inductive Json where
  | null
  | bool (b : Bool)
  | num (q : ℚ)
  | str (s : String)
  | arr (xs : List Json)
  | obj (kvs : List (String × Json))

/-- Python dict insertion: overwrite in place when the key exists,
append otherwise. -/
def dictInsert {α : Type} (kvs : List (String × α)) (k : String) (v : α) :
    List (String × α) :=
  if (kvs.lookup k).isSome then
    kvs.map (fun p => if p.1 = k then (k, v) else p)
  else
    kvs ++ [(k, v)]

/-- Python dict deletion (`del d[k]`). -/
def dictDelete {α : Type} (kvs : List (String × α)) (k : String) :
    List (String × α) :=
  kvs.filter (fun p => p.1 ≠ k)

/-- JSON whitespace (RFC 8259, what `json.loads` skips between tokens). -/
def isJsonWs (c : Char) : Bool :=
  c = ' ' || c = '\t' || c = '\n' || c = '\r'

def skipJWs (l : Chars) : Chars :=
  l.dropWhile (fun c => isJsonWs c)

/-- Value of a hex digit; 16 marks a non-hex character. -/
def hexDigitVal (c : Char) : Nat :=
  if isDigitC c then digitVal c
  else if 'a' ≤ c && c ≤ 'f' then c.toNat - 87
  else if 'A' ≤ c && c ≤ 'F' then c.toNat - 55
  else 16

/-- Translation of a single-character JSON escape (`\uXXXX` is handled
separately). -/
def escChar (e : Char) : Option Char :=
  if e = '"' then some '"'
  else if e = '\\' then some '\\'
  else if e = '/' then some '/'
  else if e = 'b' then some '\x08'
  else if e = 'f' then some '\x0c'
  else if e = 'n' then some '\n'
  else if e = 'r' then some '\x0d'
  else if e = 't' then some '\t'
  else none

/-- Body of a JSON string after the opening quote; handles the escape
sequences of RFC 8259 and rejects raw control characters.  (`\uXXXX`
surrogate pairing is not modelled; a lone escape maps through
`Char.ofNat`.) -/
def parseJStrAux : Chars → List Char → Option (String × Chars)
  | [], _ => none
  | '"' :: rest, acc => some (String.mk acc.reverse, rest)
  | '\\' :: 'u' :: rest, acc =>
    (match rest with
     | h1 :: h2 :: h3 :: h4 :: rest' =>
       let a := hexDigitVal h1
       let b := hexDigitVal h2
       let c := hexDigitVal h3
       let d := hexDigitVal h4
       if a < 16 && b < 16 && c < 16 && d < 16 then
         parseJStrAux rest' (Char.ofNat (((a * 16 + b) * 16 + c) * 16 + d) :: acc)
       else none
     | _ => none)
  | '\\' :: e :: rest, acc =>
    (match escChar e with
     | some c => parseJStrAux rest (c :: acc)
     | none => none)
  | c :: rest, acc =>
    if c.toNat < 32 then none else parseJStrAux rest (c :: acc)

def parseJStr (l : Chars) : Option (String × Chars) :=
  parseJStrAux l []

/-- `10 ^ e` over `ℚ` for a signed exponent. -/
def pow10 (e : Int) : ℚ :=
  if 0 ≤ e then (10 : ℚ) ^ e.toNat else 1 / (10 : ℚ) ^ (-e).toNat

/-- A JSON number: `-? (0 | [1-9][0-9]*) (\. [0-9]+)? ([eE][+-]?[0-9]+)?`,
decoded exactly into `ℚ`. -/
def parseJNum (l : Chars) : Option (Json × Chars) :=
  let (neg, l1) := match l with
    | '-' :: r => (true, r)
    | _ => (false, l)
  let ds := l1.takeWhile (fun c => isDigitC c)
  if ds.isEmpty then none
  else if ds.length > 1 && ds.headD '0' = '0' then none
  else
    let l2 := l1.dropWhile (fun c => isDigitC c)
    let (fs, l3) := match l2 with
      | '.' :: r =>
        let f := r.takeWhile (fun c => isDigitC c)
        (f, r.dropWhile (fun c => isDigitC c))
      | _ => ([], l2)
    if l2 ≠ l3 && fs.isEmpty then none
    else
      let finishExp := fun (r : Chars) =>
        let (eneg, r1) := match r with
          | '-' :: rr => (true, rr)
          | '+' :: rr => (false, rr)
          | _ => (false, r)
        let es := r1.takeWhile (fun c => isDigitC c)
        if es.isEmpty then none
        else
          let l5 := r1.dropWhile (fun c => isDigitC c)
          let e : Int := if eneg then -(natOfDigits es : Int) else (natOfDigits es : Int)
          let mant : ℚ := (natOfDigits (ds ++ fs) : ℚ) * pow10 (e - (fs.length : Int))
          some (Json.num (if neg then -mant else mant), l5)
      match l3 with
      | 'e' :: r => finishExp r
      | 'E' :: r => finishExp r
      | _ =>
        let mant : ℚ := (natOfDigits (ds ++ fs) : ℚ) * pow10 (-(fs.length : Int))
        some (.num (if neg then -mant else mant), l3)

mutual

/-- Recursive-descent JSON value parser (fuel-indexed; the fuel bounds
the nesting depth). -/
def parseJVal : Nat → Chars → Option (Json × Chars)
  | 0, _ => none
  | fuel + 1, l =>
    match skipJWs l with
    | '\x7b' :: rest =>
      (match skipJWs rest with
       | '\x7d' :: rest' => some (.obj [], rest')
       | _ => match parseJMembers fuel (skipJWs rest) [] with
              | some (kvs, rest') => some (.obj kvs, rest')
              | none => none)
    | '[' :: rest =>
      (match skipJWs rest with
       | ']' :: rest' => some (.arr [], rest')
       | _ => match parseJElems fuel rest [] with
              | some (xs, rest') => some (.arr xs, rest')
              | none => none)
    | '"' :: rest =>
      (match parseJStr rest with
       | some (s, rest') => some (.str s, rest')
       | none => none)
    | c :: rest =>
      if c = 't' && startsWithL rest ['r', 'u', 'e'] then
        some (.bool true, rest.drop 3)
      else if c = 'f' && startsWithL rest ['a', 'l', 's', 'e'] then
        some (.bool false, rest.drop 4)
      else if c = 'n' && startsWithL rest ['u', 'l', 'l'] then
        some (.null, rest.drop 3)
      else if c = '-' || isDigitC c then parseJNum (c :: rest)
      else none
    | [] => none

/-- Members of a JSON object, positioned at a key (after `{` or `,`). -/
def parseJMembers : Nat → Chars → List (String × Json) →
    Option (List (String × Json) × Chars)
  | 0, _, _ => none
  | fuel + 1, l, acc =>
    match skipJWs l with
    | '"' :: rest =>
      (match parseJStr rest with
       | some (k, rest1) =>
         (match skipJWs rest1 with
          | ':' :: rest2 =>
            (match parseJVal fuel rest2 with
             | some (v, rest3) =>
               (match skipJWs rest3 with
                | ',' :: rest4 => parseJMembers fuel rest4 (dictInsert acc k v)
                | '\x7d' :: rest4 => some (dictInsert acc k v, rest4)
                | _ => none)
             | none => none)
          | _ => none)
       | none => none)
    | _ => none

/-- Elements of a JSON array (after `[` or `,`). -/
def parseJElems : Nat → Chars → List Json → Option (List Json × Chars)
  | 0, _, _ => none
  | fuel + 1, l, acc =>
    match parseJVal fuel l with
    | some (v, rest) =>
      (match skipJWs rest with
       | ',' :: rest' => parseJElems fuel rest' (acc ++ [v])
       | ']' :: rest' => some (acc ++ [v], rest')
       | _ => none)
    | none => none

end

/-- `json.loads` on a character list: one JSON value, with only
whitespace around it. -/
def pyJsonLoadsL (l : Chars) : Option Json :=
  match parseJVal (l.length + 1) l with
  | some (v, rest) => if (skipJWs rest).isEmpty then some v else none
  | none => none

/-- `json.loads` on a string. -/
def pyJsonLoads (s : String) : Option Json :=
  pyJsonLoadsL s.toList

/-! ## `AgentManager` (`agent_manager.py`) -/

/-- Python `str.find(c)`: index of the first occurrence, `-1` → `none`. -/
def findIdxL (c : Char) : Chars → Option Nat
  | [] => none
  | d :: ds => if d = c then some 0 else (findIdxL c ds).map (· + 1)

/-- Python `str.rfind(c)`: index of the last occurrence. -/
def rfindIdxL (c : Char) (l : Chars) : Option Nat :=
  (findIdxL c l.reverse).map (fun i => l.length - 1 - i)

/-- Truthiness of a JSON-decoded Python value (`args or {}`). -/
def pyTruthy (j : Json) : Bool :=
  match j with
  | .null => false
  | .bool b => b
  | .num q => q ≠ 0
  | .str s => !s.isEmpty
  | .arr xs => !xs.isEmpty
  | .obj kvs => !kvs.isEmpty

/-- Python `str(...)` on a JSON-decoded value.  Exact for strings,
`None` and booleans (all any claim observes); numeric and container
formatting is approximated. -/
def pyStr (j : Json) : String :=
  match j with
  | .null => "None"
  | .bool true => "True"
  | .bool false => "False"
  | .num q => toString q
  | .str s => s
  | .arr _ => "[arr]"
  | .obj _ => "\x7bobj\x7d"

/-- The second stage of `AgentManager._safe_parse_action`: slice from the
first `{` to the last `}` and parse/validate that substring. -/
def sliceParseAction (text : Chars) : Option (List (String × Json)) :=
  match findIdxL '\x7b' text, rfindIdxL '\x7d' text with
  | some s, some e =>
    if e > s then
      match pyJsonLoadsL ((text.drop s).take (e + 1 - s)) with
      | some (Json.obj kvs) =>
        if (kvs.lookup "action").isSome then some kvs else none
      | _ => none
    else none
  | _, _ => none

/-- The first stage of `AgentManager._safe_parse_action`: parse the whole
(stripped) text as JSON and accept a dict containing an `action` key. -/
def directParseAction (text : Chars) : Option (List (String × Json)) :=
  match pyJsonLoadsL text with
  | some (Json.obj kvs) =>
    if (kvs.lookup "action").isSome then some kvs else none
  | _ => none

/-- `AgentManager._safe_parse_action`. -/
def safeParseAction (text0 : String) : Option (List (String × Json)) :=
  let text := pyStrip text0.toList
  match directParseAction text with
  | some kvs => some kvs
  | none => sliceParseAction text

/-- `name == "respond"`: Python equality of the JSON-decoded action
name with the reserved literal. -/
def isRespond (j : Json) : Bool :=
  match j with
  | .str s => s = "respond"
  | _ => false

/-- Outcome of invoking a registered tool with keyword arguments
(`self.tools[name](**args)`): a normal return already converted to
display text by `str(result)`, a `TypeError` (keyword-argument shape
mismatch), or any other exception. -/
inductive ToolOutcome where
  | ok (display : String)
  | typeErr (msg : String)
  | raised (msg : String)

/-- The tool registry: name → callable (spec §3 "Tool"). -/
abbrev Tools := List (String × (List (String × Json) → ToolOutcome))

/-- `args = action.get("args") or {}`. -/
def extractArgs (kvs : List (String × Json)) : Json :=
  match kvs.lookup "args" with
  | some v => if pyTruthy v then v else Json.obj []
  | none => Json.obj []

/-- `AgentManager.execute` from the model text onward.  The kernel call
producing the model text is an external collaborator, so `execute` is
modelled as a function of the text it returned.  An `.error` result
models an exception escaping `execute`; every path of the dispatch
state machine below returns `.ok`, except for Python-semantics corner
cases outside all claims (non-dict `args` reaching `.get`, an
unhashable `action` value reaching `in self.tools`). -/
def executeAct (tools : Tools) (llmText : String) : Except String String :=
  match safeParseAction llmText with
  | none => .ok llmText
  | some kvs =>
    let name := (kvs.lookup "action").getD Json.null
    let args := extractArgs kvs
    if isRespond name then
      match args with
      | .obj akvs =>
        .ok (match akvs.lookup "message" with
             | some v => pyStr v
             | none => "")
      | _ => .error "AttributeError: no attribute get"
    else
      match name with
      | .arr _ => .error "TypeError: unhashable type"
      | .obj _ => .error "TypeError: unhashable type"
      | .str n =>
        (match tools.lookup n with
         | none => .ok ("Unknown tool: " ++ n)
         | some f =>
           match args with
           | .obj akvs =>
             (match f akvs with
              | .ok d => .ok d
              | .typeErr e => .ok ("Tool \x27" ++ n ++ "\x27 argument error: " ++ e)
              | .raised e => .ok ("Tool \x27" ++ n ++ "\x27 failed: " ++ e))
           | _ => .ok ("Tool \x27" ++ n ++ "\x27 argument error: argument after ** must be a mapping"))
      | other => .ok ("Unknown tool: " ++ pyStr other)

/-! ## `VectorDB` (`vector_db.py`) and `Memory` (`memory.py`)

Vectors are `List ℚ` (exact arithmetic in place of `numpy` float64).
The cosine similarity `np.dot(q, v) / (np.linalg.norm(q) *
np.linalg.norm(v))` is the real number `dot / √(Σq² · Σv²)`; it is
represented exactly by the pair `SimVal` of its numerator and the
radicand of its denominator.  A zero norm makes the Python expression
`0.0 / 0.0 = nan`; this is exactly the `den = 0` case (a zero norm
forces the dot product to 0 as well).  The comparison operations below
are the Python float comparisons of these values: every comparison
with NaN is false, and on non-NaN values the order is the real order
`num₁/√den₁ < num₂/√den₂`, decided exactly over `ℚ`. -/

structure SimVal where
  num : ℚ
  den : ℚ
deriving DecidableEq, Repr

/-- `np.dot` for 1-D arrays. -/
def dotL (a b : List ℚ) : ℚ :=
  (List.zipWith (· * ·) a b).sum

/-- Sum of squares: the radicand of `np.linalg.norm`. -/
def sumSq (a : List ℚ) : ℚ :=
  (a.map (fun x => x * x)).sum

/-- Exact value of the Python expression
`np.dot(q, v) / (np.linalg.norm(q) * np.linalg.norm(v))`. -/
def cosineSim (q v : List ℚ) : SimVal :=
  ⟨dotL q v, sumSq q * sumSq v⟩

/-- Python float `<` on two similarity values: false when either is NaN
(`den = 0`), otherwise the order of `num₁/√den₁` and `num₂/√den₂`,
decided by sign analysis and cross-multiplied squares. -/
def simLt (a b : SimVal) : Bool :=
  if a.den = 0 || b.den = 0 then false
  else if a.num < 0 then
    decide (0 ≤ b.num) || (decide (b.num < 0) && decide (b.num ^ 2 * a.den < a.num ^ 2 * b.den))
  else if a.num = 0 then decide (0 < b.num)
  else decide (0 < b.num) && decide (a.num ^ 2 * b.den < b.num ^ 2 * a.den)

/-- Python float `<=` on similarity values: false when either is NaN,
otherwise `¬ (b < a)`. -/
def simLe (a b : SimVal) : Bool :=
  !(a.den = 0 || b.den = 0) && !(simLt b a)

/-- Python float `==` on similarity values (NaN equals nothing). -/
def simEqF (a b : SimVal) : Bool :=
  simLe a b && simLe b a

structure VectorRecord where
  id : String
  vector : List ℚ
  metadata : List (String × Json)
  text : Option String

/-- `VectorDB.__init__(dim)`: `records` models the Python insertion-
ordered dict `id → VectorRecord`. -/
structure VectorDB where
  dim : Nat
  records : List (String × VectorRecord)

/-- `VectorDB.add`.  Mutating methods are modelled as
`state → (Except raisedException returnValue) × state`; a raise leaves
the state component equal to the input state, as in Python where the
`ValueError` fires before any mutation. -/
def VectorDB.add (db : VectorDB) (vector : List ℚ)
    (metadata : List (String × Json)) (text : Option String) :
    Except String String × VectorDB :=
  if vector.length ≠ db.dim then
    (.error ("Vector dimension must be " ++ toString db.dim), db)
  else
    let recordId := "vec_" ++ toString (db.records.length + 1)
    let newRec : VectorRecord :=
      { id := recordId, vector := vector, metadata := metadata, text := text }
    (.ok recordId,
     { db with records := dictInsert db.records recordId newRec })

/-- `VectorDB.delete`. -/
def VectorDB.delete (db : VectorDB) (recordId : String) : Bool × VectorDB :=
  if (db.records.lookup recordId).isSome then
    (true, { db with records := dictDelete db.records recordId })
  else
    (false, db)

/-- One element of `VectorDB.search`'s result list
(`{'id', 'similarity', 'metadata', 'text'}`). -/
structure SearchResult where
  id : String
  similarity : SimVal
  metadata : List (String × Json)
  text : Option String

def mkResult (rs : VectorRecord × SimVal) : SearchResult :=
  ⟨rs.1.id, rs.2, rs.1.metadata, rs.1.text⟩

/-- `similarities.sort(key=lambda x: x[1], reverse=True)` insertion
step: keep `x` before the first `y` it is not strictly below. -/
def ordInsertDesc (x : VectorRecord × SimVal) :
    List (VectorRecord × SimVal) → List (VectorRecord × SimVal)
  | [] => [x]
  | y :: l => if simLt x.2 y.2 then y :: ordInsertDesc x l else x :: y :: l

/-- `similarities.sort(key=lambda x: x[1], reverse=True)`: CPython's
sort is a stable descending comparison sort.  On consistently ordered
keys a stable descending sort has a unique result, so this insertion
sort agrees with Timsort extensionally; on lists of at most two
elements (the only NaN-key lists any theorem below evaluates) the two
algorithms also perform the identical single comparison. -/
def sortDescBySim : List (VectorRecord × SimVal) → List (VectorRecord × SimVal)
  | [] => []
  | x :: l => ordInsertDesc x (sortDescBySim l)

/-- `VectorDB.search`.  `top_k` is modelled as a count (`ℕ`); the
callers in the repository pass positive counts. -/
def VectorDB.search (db : VectorDB) (queryVector : List ℚ) (topK : Nat) :
    Except String (List SearchResult) :=
  if queryVector.length ≠ db.dim then
    .error ("Query vector dimension must be " ++ toString db.dim)
  else
    let similarities := db.records.map (fun p => (p.2, cosineSim queryVector p.2.vector))
    .ok (((sortDescBySim similarities).take topK).map mkResult)

/-- The search-result views of the stored records in insertion order,
before sorting (used to state the stable-tie-order property). -/
def insertionResults (db : VectorDB) (queryVector : List ℚ) : List SearchResult :=
  (db.records.map (fun p => (p.2, cosineSim queryVector p.2.vector))).map mkResult

/-- `Memory` over a `VectorDBStore` (the adapter in `vector_store.py`
forwards `add` verbatim to the wrapped `VectorDB`). -/
structure Memory where
  store : VectorDB
  dim : Nat

/-- `Memory.store_memory`: checks `embedding.shape[-1] != self.dim`
(for a 1-D embedding, its length) and raises `ValueError` before any
mutation; otherwise forwards to `VectorDB.add` with the query text. -/
def Memory.storeMemory (mem : Memory) (query : String) (embedding : List ℚ)
    (metadata : Option (List (String × Json))) :
    Except String String × Memory :=
  if embedding.length ≠ mem.dim then
    (.error ("Embedding dim " ++ toString embedding.length
       ++ " != expected " ++ toString mem.dim), mem)
  else
    let r := mem.store.add embedding (metadata.getD []) (some query)
    (r.1, { mem with store := r.2 })

/-! ## `Kernel.process_input` (`kernel.py`)

The language model, the memory retrieval and the two memory writes are
external collaborators of one turn; `processInput` is parameterised by
their outcomes.  `retrieval` is the outcome of
`memory.retrieve_memory`, `store1`/`store2` the outcomes of the two
`memory.store_text` calls (fire-and-forget: the source wraps both
regions in `try/except: pass`, so the embedded function matches a
failing outcome to "continue without it"), and `llm` the active
model's `generate`, returning the `text` field (the claim about this
component assumes the model call succeeds). -/

structure ChatMessage where
  role : String
  content : String
deriving DecidableEq, Repr

/-- The memory system message: one `"- snippet"` line per result with
nonempty text, or nothing when no snippet survives. -/
def memoryBlock (results : List SearchResult) : Option ChatMessage :=
  let snips := ((results.map (fun r => r.text.getD "")).filter
    (fun s => !s.isEmpty)).map (fun s => "- " ++ s)
  if snips.isEmpty then none
  else some ⟨"system", "Relevant memory items (most similar first):\n"
    ++ String.intercalate "\n" snips⟩

/-- The message list of a turn with no memory injection:
system prompt (if any), prior context, then the user text. -/
def baseMessages (text : String) (systemPrompt : Option String)
    (ctx : List ChatMessage) : List ChatMessage :=
  ((match systemPrompt with
    | some s => [ChatMessage.mk "system" s]
    | none => []) ++ ctx) ++ [ChatMessage.mk "user" text]

/-- `Kernel.process_input`.  An `.error` result would model an
exception escaping the method. -/
def processInput (text : String) (systemPrompt : Option String)
    (ctx : List ChatMessage) (memcfg : Bool)
    (retrieval : Except String (List SearchResult))
    (_store1 _store2 : Except String String)
    (llm : List ChatMessage → String) : Except String String :=
  let base := (match systemPrompt with
    | some s => [ChatMessage.mk "system" s]
    | none => []) ++ ctx
  let withMem :=
    if memcfg then
      match retrieval with
      | .ok results =>
        (match memoryBlock results with
         | some m => base ++ [m]
         | none => base)
      | .error _ => base
    else base
  let messages := withMem ++ [ChatMessage.mk "user" text]
  let outputText := llm messages
  .ok outputText

/-! ## Concrete instances used by the claim theorems -/

/-- The exact real value represented by a similarity with positive
radicand is `num / √den`; the strictly monotone map `x ↦ x·|x|` turns
its order into a rational comparison.  `simKey` is that rational
surrogate: comparisons of represented values agree with comparisons of
keys (proved in `simLt_iff` below). -/
def simKey (a : SimVal) : ℚ :=
  a.num * |a.num| / a.den

/-- State after `add([1]); add([2])` on a 1-dimensional `VectorDB`. -/
def c1Db2 : VectorDB := (VectorDB.add (VectorDB.add ⟨1, []⟩ [1] [] none).2 [2] [] none).2

/-- State after additionally `delete("vec_1")`. -/
def c1Db3 : VectorDB := (VectorDB.delete c1Db2 "vec_1").2

/-- A 2-dimensional store holding only the zero vector. -/
def c3Db : VectorDB := (VectorDB.add ⟨2, []⟩ [0, 0] [] (some "zero")).2

/-- A store with two unit-norm records. -/
def c2Db : VectorDB :=
  ⟨2, [("vec_1", ⟨"vec_1", [1, 0], [], some "a"⟩), ("vec_2", ⟨"vec_2", [0, 1], [], some "b"⟩)]⟩

/-- The `top_k = 1` search result on `c2Db` for query `[1, 0]`. -/
def c2Res : List SearchResult := [⟨"vec_1", ⟨1, 1⟩, [], some "a"⟩]

/-- A store holding a zero-norm record followed by a unit-norm record
(the state after `add([0,0]); add([1,0])`). -/
def c2NanDb : VectorDB :=
  ⟨2, [("vec_1", ⟨"vec_1", [0, 0], [], some "zero"⟩), ("vec_2", ⟨"vec_2", [1, 0], [], some "one"⟩)]⟩

/-- A tool accepting only the keyword argument `a`: any other argument
set raises the keyword-mismatch `TypeError`. -/
def c5NeedsA : List (String × Json) → ToolOutcome :=
  fun kvs =>
    if (kvs.lookup "a").isSome then .ok "1"
    else .typeErr "got an unexpected keyword argument"

/-- A tool whose body raises `RuntimeError("kaboom")`. -/
def c5Boom : List (String × Json) → ToolOutcome :=
  fun _ => .raised "kaboom"

def c5Tools : Tools := [("needs_a", c5NeedsA), ("boom", c5Boom)]


/-! ## Helper lemmas

Order theory of the exact similarity representation, and the
permutation / sortedness / stability theory of the embedded stable
descending sort. -/

theorem sumSq_nonneg (a : List ℚ) : 0 ≤ sumSq a := by
  apply List.sum_nonneg
  intro x hx
  simp only [sumSq, List.mem_map] at hx
  obtain ⟨y, -, rfl⟩ := hx
  exact mul_self_nonneg y

theorem simLt_iff {a b : SimVal} (ha : 0 < a.den) (hb : 0 < b.den) :
    simLt a b = true ↔ simKey a < simKey b := by
  rw [simKey, simKey, div_lt_div_iff₀ ha hb]
  unfold simLt
  rw [if_neg (by simp [ha.ne', hb.ne'])]
  rcases lt_trichotomy a.num 0 with haneg | hazero | hapos
  · rw [if_pos haneg, abs_of_neg haneg]
    simp only [Bool.or_eq_true, Bool.and_eq_true, decide_eq_true_eq]
    constructor
    · rintro (hbpos | ⟨hbneg, hlt⟩)
      · rw [abs_of_nonneg hbpos]
        nlinarith [mul_pos_of_neg_of_neg haneg haneg, mul_nonneg (mul_nonneg hbpos hbpos) ha.le,
          mul_pos (mul_pos_of_neg_of_neg haneg haneg) hb]
      · rw [abs_of_neg hbneg]
        nlinarith
    · intro h
      rcases le_or_lt 0 b.num with hbpos | hbneg
      · exact Or.inl hbpos
      · refine Or.inr ⟨hbneg, ?_⟩
        rw [abs_of_neg hbneg] at h
        nlinarith
  · rw [if_neg (by simp [hazero]), if_pos hazero, hazero]
    simp only [decide_eq_true_eq]
    constructor
    · intro hbpos
      have h1 : 0 < b.num * |b.num| := by
        have := abs_pos.2 hbpos.ne'
        nlinarith
      nlinarith
    · intro h
      by_contra hble
      push_neg at hble
      have h2 : b.num * |b.num| ≤ 0 := by
        rcases lt_or_eq_of_le hble with hlt | heq
        · rw [abs_of_neg hlt]; nlinarith
        · simp [heq]
      nlinarith
  · rw [if_neg (by simp [not_lt.2 hapos.le]), if_neg (by simp [hapos.ne']),
      abs_of_pos hapos]
    simp only [Bool.and_eq_true, decide_eq_true_eq]
    constructor
    · rintro ⟨hbpos, hlt⟩
      rw [abs_of_pos hbpos]
      nlinarith
    · intro h
      have hbpos : 0 < b.num := by
        by_contra hble
        push_neg at hble
        have h2 : b.num * |b.num| ≤ 0 := by
          rcases lt_or_eq_of_le hble with hlt | heq
          · rw [abs_of_neg hlt]; nlinarith
          · simp [heq]
        nlinarith
      refine ⟨hbpos, ?_⟩
      rw [abs_of_pos hbpos] at h
      nlinarith

theorem simLe_iff {a b : SimVal} (ha : 0 < a.den) (hb : 0 < b.den) :
    simLe a b = true ↔ simKey a ≤ simKey b := by
  unfold simLe
  simp only [Bool.and_eq_true, Bool.not_eq_true', Bool.or_eq_false_iff, decide_eq_false_iff_not]
  constructor
  · rintro ⟨-, hnlt⟩
    by_contra hgt
    push_neg at hgt
    exact absurd ((simLt_iff hb ha).2 hgt) (by simp [hnlt])
  · intro h
    refine ⟨⟨ha.ne', hb.ne'⟩, ?_⟩
    by_contra hlt
    simp only [Bool.not_eq_false] at hlt
    exact absurd ((simLt_iff hb ha).1 hlt) (not_lt.2 h)

theorem simEqF_iff {a b : SimVal} (ha : 0 < a.den) (hb : 0 < b.den) :
    simEqF a b = true ↔ simKey a = simKey b := by
  unfold simEqF
  rw [Bool.and_eq_true, simLe_iff ha hb, simLe_iff hb ha]
  constructor
  · rintro ⟨h1, h2⟩
    exact le_antisymm h1 h2
  · intro h
    exact ⟨h.le, h.ge⟩

theorem simEqF_nan {a b : SimVal} (hb : b.den = 0) : simEqF a b = false := by
  unfold simEqF simLe
  simp [hb]

theorem ordInsertDesc_perm (x : VectorRecord × SimVal) (l : List (VectorRecord × SimVal)) :
    (ordInsertDesc x l).Perm (x :: l) := by
  induction l with
  | nil => simp [ordInsertDesc]
  | cons y l ih =>
    unfold ordInsertDesc
    by_cases h : simLt x.2 y.2 = true
    · simp only [h, if_true]
      exact (ih.cons y).trans (List.Perm.swap x y l)
    · simp [h]

theorem sortDescBySim_perm (l : List (VectorRecord × SimVal)) :
    (sortDescBySim l).Perm l := by
  induction l with
  | nil => simp [sortDescBySim]
  | cons x l ih =>
    unfold sortDescBySim
    exact (ordInsertDesc_perm x (sortDescBySim l)).trans (ih.cons x)

theorem pairwise_ordInsertDesc (x : VectorRecord × SimVal)
    (L : List (VectorRecord × SimVal))
    (hx : 0 < x.2.den) (hL : ∀ y ∈ L, 0 < y.2.den)
    (h : L.Pairwise (fun u v => simKey v.2 ≤ simKey u.2)) :
    (ordInsertDesc x L).Pairwise (fun u v => simKey v.2 ≤ simKey u.2) := by
  induction L with
  | nil => simp [ordInsertDesc]
  | cons y L ih =>
    have hy : 0 < y.2.den := hL y (by simp)
    have hL' : ∀ z ∈ L, 0 < z.2.den := fun z hz => hL z (by simp [hz])
    rw [List.pairwise_cons] at h
    unfold ordInsertDesc
    by_cases hlt : simLt x.2 y.2 = true
    · have hkey : simKey x.2 < simKey y.2 := (simLt_iff hx hy).1 hlt
      simp only [hlt, if_true]
      rw [List.pairwise_cons]
      constructor
      · intro z hz
        have hz' : z ∈ x :: L := (ordInsertDesc_perm x L).mem_iff.1 hz
        rcases List.mem_cons.1 hz' with rfl | hzL
        · exact hkey.le
        · exact h.1 z hzL
      · exact ih hL' h.2
    · have hkey : simKey y.2 ≤ simKey x.2 := by
        have := (simLt_iff hx hy).not.1 (by simp [hlt])
        exact not_lt.1 this
      simp only [Bool.not_eq_true] at hlt
      simp only [hlt, Bool.false_eq_true, if_false]
      rw [List.pairwise_cons]
      constructor
      · intro z hz
        rcases List.mem_cons.1 hz with rfl | hzL
        · exact hkey
        · exact (h.1 z hzL).trans hkey
      · rw [List.pairwise_cons]
        exact ⟨h.1, h.2⟩

theorem pairwise_sortDescBySim (l : List (VectorRecord × SimVal))
    (hl : ∀ y ∈ l, 0 < y.2.den) :
    (sortDescBySim l).Pairwise (fun u v => simKey v.2 ≤ simKey u.2) := by
  induction l with
  | nil => simp [sortDescBySim]
  | cons x l ih =>
    unfold sortDescBySim
    apply pairwise_ordInsertDesc
    · exact hl x (by simp)
    · intro y hy
      exact hl y (by simp [(sortDescBySim_perm l).mem_iff.1 hy])
    · exact ih (fun y hy => hl y (by simp [hy]))

theorem filter_ordInsertDesc (s : SimVal) (hs : 0 < s.den)
    (x : VectorRecord × SimVal) (L : List (VectorRecord × SimVal))
    (hx : 0 < x.2.den) (hL : ∀ y ∈ L, 0 < y.2.den) :
    (ordInsertDesc x L).filter (fun y => simEqF y.2 s)
      = if simEqF x.2 s = true then x :: L.filter (fun y => simEqF y.2 s)
        else L.filter (fun y => simEqF y.2 s) := by
  induction L with
  | nil =>
    simp only [ordInsertDesc, List.filter]
    by_cases hpx : simEqF x.2 s = true
    · simp [hpx]
    · simp [hpx]
  | cons y L ih =>
    have hy : 0 < y.2.den := hL y (by simp)
    have hL' : ∀ z ∈ L, 0 < z.2.den := fun z hz => hL z (by simp [hz])
    unfold ordInsertDesc
    by_cases hlt : simLt x.2 y.2 = true
    · have hkey : simKey x.2 < simKey y.2 := (simLt_iff hx hy).1 hlt
      simp only [hlt, if_true]
      by_cases hpx : simEqF x.2 s = true
      · have hpy : simEqF y.2 s = false := by
          rw [Bool.eq_false_iff]
          intro hpy
          have h1 := (simEqF_iff hx hs).1 hpx
          have h2 := (simEqF_iff hy hs).1 hpy
          rw [← h2] at h1
          exact absurd h1 hkey.ne
        rw [List.filter_cons_of_neg (by simp [hpy]), ih hL', if_pos hpx,
          List.filter_cons_of_neg (by simp [hpy]), if_pos hpx]
      · by_cases hpy : simEqF y.2 s = true
        · rw [List.filter_cons_of_pos (by simp [hpy]), ih hL', if_neg hpx,
            List.filter_cons_of_pos (by simp [hpy]), if_neg hpx]
        · rw [List.filter_cons_of_neg (by simp [hpy]), ih hL', if_neg hpx,
            List.filter_cons_of_neg (by simp [hpy]), if_neg hpx]
    · simp only [Bool.not_eq_true] at hlt
      simp only [hlt, Bool.false_eq_true, if_false]
      by_cases hpx : simEqF x.2 s = true
      · rw [List.filter_cons_of_pos (by simp [hpx]), if_pos hpx]
      · rw [List.filter_cons_of_neg (by simp [hpx]), if_neg hpx]

theorem filter_sortDescBySim (s : SimVal) (hs : 0 < s.den)
    (l : List (VectorRecord × SimVal)) (hl : ∀ y ∈ l, 0 < y.2.den) :
    (sortDescBySim l).filter (fun y => simEqF y.2 s)
      = l.filter (fun y => simEqF y.2 s) := by
  induction l with
  | nil => simp [sortDescBySim]
  | cons x l ih =>
    have hx : 0 < x.2.den := hl x (by simp)
    have hl' : ∀ z ∈ l, 0 < z.2.den := fun z hz => hl z (by simp [hz])
    unfold sortDescBySim
    rw [filter_ordInsertDesc s hs x (sortDescBySim l) hx
      (fun z hz => hl' z ((sortDescBySim_perm l).mem_iff.1 hz)), ih hl']
    by_cases hpx : simEqF x.2 s = true
    · rw [if_pos hpx, List.filter_cons_of_pos (by simp [hpx])]
    · rw [if_neg hpx, List.filter_cons_of_neg (by simp [hpx])]

theorem filter_take_eq_take_filter {α : Type} (p : α → Bool) (L : List α) (k : Nat) :
    ∃ m, (L.take k).filter p = (L.filter p).take m := by
  refine ⟨((L.take k).filter p).length, ?_⟩
  have h : List.filter p (L.take k) ++ List.filter p (L.drop k) = List.filter p L := by
    rw [← List.filter_append, List.take_append_drop]
  rw [← h, List.take_left]


/-! ## Claim theorems -/

/-- C1: the claim says memory record ids are unique and monotonically
assigned, and that a store never overwrites an existing record, in
particular when a delete precedes a store.  The code computes ids as
`f"vec_{len(self.records) + 1}"`, so after `add; add; delete("vec_1")`
the next `add` returns `"vec_2"` — the id of a record that is still
stored — and silently overwrites that record (the store shrinks from
two live records to one).  This theorem evaluates the embedded code on
that failing sequence. -/
theorem claim_C1_delete_then_store_reuses_id :
    (VectorDB.add (VectorDB.add ⟨1, []⟩ [1] [] none).2 [2] [] none).1 = .ok "vec_2"
    ∧ (VectorDB.delete c1Db2 "vec_1").1 = true
    ∧ (c1Db3.records.lookup "vec_2").isSome = true
    ∧ (VectorDB.add c1Db3 [3] [] none).1 = .ok "vec_2"
    ∧ ((VectorDB.add c1Db3 [3] [] none).2.records.lookup "vec_2").map (fun r => r.vector)
        = some [3]
    ∧ (VectorDB.add c1Db3 [3] [] none).2.records.length = 1 :=
  ⟨rfl, rfl, rfl, rfl, rfl, rfl⟩

/-- C2 (amended): provided the query vector and every stored vector
have nonzero norm — so that no similarity is the NaN produced by the
unguarded division — `search` with `top_k = k` returns at most `k`
results, the similarities are non-increasing from first to last, and
records with equal similarity appear in their insertion order: the
results with any fixed similarity value are an initial segment of the
insertion-ordered records with that similarity. -/
theorem claim_C2_search_topk_sorted_stable (db : VectorDB) (q : List ℚ) (k : Nat)
    (res : List SearchResult) (s : SimVal)
    (hq : sumSq q ≠ 0)
    (hrec : ∀ p ∈ db.records, sumSq p.2.vector ≠ 0)
    (hsden : 0 ≤ s.den)
    (hs : VectorDB.search db q k = .ok res) :
    res.length ≤ k
    ∧ res.Pairwise (fun a b => simLe b.similarity a.similarity = true)
    ∧ ∃ m, res.filter (fun r => simEqF r.similarity s)
        = ((insertionResults db q).filter (fun r => simEqF r.similarity s)).take m := by
  have hqpos : 0 < sumSq q := (sumSq_nonneg q).lt_of_ne (Ne.symm hq)
  by_cases hdim : q.length ≠ db.dim
  · rw [VectorDB.search, if_pos hdim] at hs
    exact absurd hs (by simp)
  rw [VectorDB.search, if_neg hdim] at hs
  simp only [Except.ok.injEq] at hs
  subst hs
  set sims := db.records.map (fun p => (p.2, cosineSim q p.2.vector)) with hsims
  have hgood : ∀ y ∈ sims, 0 < y.2.den := by
    intro y hy
    rw [hsims, List.mem_map] at hy
    obtain ⟨p, hp, rfl⟩ := hy
    exact mul_pos hqpos ((sumSq_nonneg _).lt_of_ne (Ne.symm (hrec p hp)))
  have hgoodSorted : ∀ y ∈ sortDescBySim sims, 0 < y.2.den :=
    fun y hy => hgood y ((sortDescBySim_perm sims).mem_iff.1 hy)
  have hgoodTake : ∀ y ∈ (sortDescBySim sims).take k, 0 < y.2.den :=
    fun y hy => hgoodSorted y ((List.take_sublist k _).mem hy)
  refine ⟨?_, ?_, ?_⟩
  · rw [List.length_map, List.length_take]
    exact min_le_left _ _
  · rw [List.pairwise_map]
    have hsorted := (pairwise_sortDescBySim sims hgood).sublist (List.take_sublist k _)
    refine hsorted.imp_of_mem ?_
    intro a b ha hb hkey
    exact (simLe_iff (hgoodTake b hb) (hgoodTake a ha)).2 hkey
  · rcases hsden.eq_or_lt with hzero | hpos
    · refine ⟨0, ?_⟩
      rw [List.take_zero, List.filter_eq_nil_iff]
      intro r hr
      rw [List.mem_map] at hr
      obtain ⟨y, -, rfl⟩ := hr
      simp [mkResult, simEqF_nan hzero.symm]
    · have hcomp : ((fun r : SearchResult => simEqF r.similarity s) ∘ mkResult)
          = (fun y : VectorRecord × SimVal => simEqF y.2 s) := rfl
      obtain ⟨m, hm⟩ := filter_take_eq_take_filter (fun y => simEqF y.2 s) (sortDescBySim sims) k
      refine ⟨m, ?_⟩
      rw [@List.filter_map _ _ (fun r => simEqF r.similarity s) mkResult
        ((sortDescBySim sims).take k), hcomp, hm,
        filter_sortDescBySim s hpos sims hgood, List.map_take]
      have hins : insertionResults db q = sims.map mkResult := rfl
      rw [hins, @List.filter_map _ _ (fun r => simEqF r.similarity s) mkResult sims, hcomp]

/-- C2 witness: the amended theorem applied to a concrete store of two
unit-norm records, query `[1, 0]`, `top_k = 1`. -/
theorem claim_C2_witness :
    sumSq ([1, 0] : List ℚ) ≠ 0
    ∧ VectorDB.search c2Db [1, 0] 1 = .ok c2Res
    ∧ c2Res.length ≤ 1
    ∧ c2Res.Pairwise (fun a b => simLe b.similarity a.similarity = true)
    ∧ ∃ m, c2Res.filter (fun r => simEqF r.similarity ⟨1, 1⟩)
        = ((insertionResults c2Db [1, 0]).filter (fun r => simEqF r.similarity ⟨1, 1⟩)).take m := by
  have hq : sumSq ([1, 0] : List ℚ) ≠ 0 := by norm_num [sumSq]
  have hsearch : VectorDB.search c2Db [1, 0] 1 = .ok c2Res := by
    norm_num [VectorDB.search, c2Db, c2Res, cosineSim, sumSq, dotL, sortDescBySim,
      ordInsertDesc, simLt, mkResult]
  have hrec : ∀ p ∈ c2Db.records, sumSq p.2.vector ≠ 0 := by
    intro p hp
    simp only [c2Db, List.mem_cons, List.not_mem_nil, or_false] at hp
    rcases hp with rfl | rfl
    · norm_num [sumSq]
    · norm_num [sumSq]
  have h := claim_C2_search_topk_sorted_stable c2Db [1, 0] 1 c2Res ⟨1, 1⟩
    hq hrec (by norm_num) hsearch
  exact ⟨hq, hsearch, h.1, h.2.1, h.2.2⟩

/-- C2 counterexample: the claim as stated quantifies over every
stored record set, but when a zero-norm vector is stored its
similarity is the NaN of `0.0/0.0`, which compares false against
everything: the returned list `[NaN, 1.0]` is not non-increasing, so
the unconditional claim is false on the code. -/
theorem claim_C2_counterexample_nan_breaks_order :
    VectorDB.search c2NanDb [1, 0] 5
      = .ok [⟨"vec_1", ⟨0, 0⟩, [], some "zero"⟩, ⟨"vec_2", ⟨1, 1⟩, [], some "one"⟩]
    ∧ ¬ ([(⟨"vec_1", ⟨0, 0⟩, [], some "zero"⟩ : SearchResult),
          ⟨"vec_2", ⟨1, 1⟩, [], some "one"⟩].Pairwise
        (fun a b => simLe b.similarity a.similarity = true)) := by
  constructor
  · norm_num [VectorDB.search, c2NanDb, cosineSim, sumSq, dotL, sortDescBySim,
      ordInsertDesc, simLt, mkResult]
  · intro h
    rw [List.pairwise_cons] at h
    have h2 := h.1 (⟨"vec_2", ⟨1, 1⟩, [], some "one"⟩ : SearchResult) (by simp)
    simp [simLe] at h2

/-- C3: the claim says similarity is cosine similarity guarded against
division by zero, reporting 0 for zero-norm vectors.  The code divides
unguardedly: for a stored zero vector the reported similarity is the
value of `0.0/0.0` — NaN (represented here by a zero radicand,
`den = 0`), which is not equal to the float `0.0`.  This theorem
evaluates the embedded search at such a record. -/
theorem claim_C3_zero_norm_yields_nan :
    VectorDB.search c3Db [1, 0] 5 = .ok [⟨"vec_1", ⟨0, 0⟩, [], some "zero"⟩]
    ∧ (cosineSim [1, 0] [0, 0]).den = 0
    ∧ simEqF (cosineSim [1, 0] [0, 0]) ⟨0, 1⟩ = false := by
  refine ⟨?_, ?_, ?_⟩
  · norm_num [VectorDB.search, c3Db, VectorDB.add, dictInsert, cosineSim, sumSq, dotL,
      sortDescBySim, ordInsertDesc, simLt, mkResult]
    rfl
  · norm_num [cosineSim, sumSq, dotL]
  · norm_num [simEqF, simLe, simLt, cosineSim, sumSq, dotL]

/-- C4: the action interpreter first parses the whole trimmed text as
JSON, accepting a dict with an `action` key; failing that it slices
from the first opening to the last closing brace and retries; if both
attempts fail it returns null.  The two concrete evaluations of the
claim hold, and whenever both stages fail the result is null. -/
theorem claim_C4_two_stage_action_parse (t : String)
    (h1 : directParseAction (pyStrip t.toList) = none)
    (h2 : sliceParseAction (pyStrip t.toList) = none) :
    safeParseAction "noise \x7b\"action\":\"x\",\"args\":\x7b\x7d\x7d trailing"
      = some [("action", Json.str "x"), ("args", Json.obj [])]
    ∧ safeParseAction "no braces here" = none
    ∧ safeParseAction t = none := by
  refine ⟨rfl, rfl, ?_⟩
  simp only [String.toList] at h1 h2
  simp [safeParseAction, h1, h2]

/-- C4 witness: the theorem applied at `t = "xyz"`. -/
theorem claim_C4_witness :
    directParseAction (pyStrip (String.toList "xyz")) = none
    ∧ sliceParseAction (pyStrip (String.toList "xyz")) = none
    ∧ safeParseAction "noise \x7b\"action\":\"x\",\"args\":\x7b\x7d\x7d trailing"
        = some [("action", Json.str "x"), ("args", Json.obj [])]
    ∧ safeParseAction "no braces here" = none
    ∧ safeParseAction "xyz" = none := by
  have h := claim_C4_two_stage_action_parse "xyz" rfl rfl
  exact ⟨rfl, rfl, h.1, h.2.1, h.2.2⟩

/-- C5: dispatch errors never abort `execute`.  For a parsed action
whose name is a string other than `"respond"`: an unregistered name
returns exactly `"Unknown tool: <name>"`; a registered tool whose
invocation reports a keyword-argument mismatch (`TypeError`) returns
`"Tool <name> argument error: <details>"` (name in single quotes); any
other exception returns `"Tool <name> failed: <details>"`.  All three
return normally (`.ok`), never propagating an exception. -/
theorem claim_C5_dispatch_errors_recovered (tools : Tools) (llmText : String)
    (kvs akvs : List (String × Json)) (n : String)
    (f : List (String × Json) → ToolOutcome) (e : String)
    (h1 : safeParseAction llmText = some kvs)
    (h2 : kvs.lookup "action" = some (Json.str n))
    (h3 : n ≠ "respond") :
    (tools.lookup n = none → executeAct tools llmText = .ok ("Unknown tool: " ++ n))
    ∧ (extractArgs kvs = Json.obj akvs → tools.lookup n = some f → f akvs = .typeErr e →
        executeAct tools llmText = .ok ("Tool \x27" ++ n ++ "\x27 argument error: " ++ e))
    ∧ (extractArgs kvs = Json.obj akvs → tools.lookup n = some f → f akvs = .raised e →
        executeAct tools llmText = .ok ("Tool \x27" ++ n ++ "\x27 failed: " ++ e)) := by
  refine ⟨?_, ?_, ?_⟩
  · intro hu
    simp [executeAct, h1, h2, h3, isRespond, hu]
  · intro ha hf ho
    simp [executeAct, h1, h2, h3, isRespond, ha, hf, ho]
  · intro ha hf ho
    simp [executeAct, h1, h2, h3, isRespond, ha, hf, ho]

/-- C5 witness: the three dispatch-error cases evaluated on a concrete
registry (matching the shapes exercised by the test suite of the
repository). -/
theorem claim_C5_witness :
    executeAct c5Tools "\x7b\"action\": \"ghost\", \"args\": \x7b\x7d\x7d"
      = .ok "Unknown tool: ghost"
    ∧ executeAct c5Tools "\x7b\"action\": \"needs_a\", \"args\": \x7b\"b\": \"x\"\x7d\x7d"
      = .ok "Tool \x27needs_a\x27 argument error: got an unexpected keyword argument"
    ∧ executeAct c5Tools "\x7b\"action\": \"boom\", \"args\": \x7b\x7d\x7d"
      = .ok "Tool \x27boom\x27 failed: kaboom" := by
  refine ⟨?_, ?_, ?_⟩
  · exact (claim_C5_dispatch_errors_recovered c5Tools
      "\x7b\"action\": \"ghost\", \"args\": \x7b\x7d\x7d"
      [("action", Json.str "ghost"), ("args", Json.obj [])] [] "ghost" c5NeedsA ""
      rfl rfl (by decide)).1 rfl
  · exact (claim_C5_dispatch_errors_recovered c5Tools
      "\x7b\"action\": \"needs_a\", \"args\": \x7b\"b\": \"x\"\x7d\x7d"
      [("action", Json.str "needs_a"), ("args", Json.obj [("b", Json.str "x")])]
      [("b", Json.str "x")] "needs_a" c5NeedsA "got an unexpected keyword argument"
      rfl rfl (by decide)).2.1 rfl rfl rfl
  · exact (claim_C5_dispatch_errors_recovered c5Tools
      "\x7b\"action\": \"boom\", \"args\": \x7b\x7d\x7d"
      [("action", Json.str "boom"), ("args", Json.obj [])] [] "boom" c5Boom "kaboom"
      rfl rfl (by decide)).2.2 rfl rfl rfl

/-- C6: when the model text decodes as a JSON object with action
`"respond"` and an `args` object, `execute` returns exactly the
`message` string, and the empty string when `args` has no `message`
key. -/
theorem claim_C6_respond_returns_message (tools : Tools) (t : String)
    (kvs akvs : List (String × Json)) (m : String)
    (h1 : pyJsonLoadsL (pyStrip t.toList) = some (Json.obj kvs))
    (h2 : kvs.lookup "action" = some (Json.str "respond"))
    (h3 : kvs.lookup "args" = some (Json.obj akvs)) :
    (akvs.lookup "message" = some (Json.str m) → executeAct tools t = .ok m)
    ∧ (akvs.lookup "message" = none → executeAct tools t = .ok "") := by
  simp only [String.toList] at h1
  constructor
  · intro hm
    have hne : akvs ≠ [] := by
      intro h
      rw [h] at hm
      simp at hm
    simp [executeAct, safeParseAction, directParseAction, h1, h2, h3, extractArgs,
      pyTruthy, isRespond, hne, hm, pyStr]
  · intro hm
    by_cases he : akvs = []
    · subst he
      simp [executeAct, safeParseAction, directParseAction, h1, h2, h3, extractArgs,
        pyTruthy, isRespond]
    · simp [executeAct, safeParseAction, directParseAction, h1, h2, h3, extractArgs,
        pyTruthy, isRespond, he, hm]

/-- C6 witness: a round-tripping respond action returns its message,
and a respond action without a message key returns the empty
string. -/
theorem claim_C6_witness :
    executeAct [] "\x7b\"action\": \"respond\", \"args\": \x7b\"message\": \"hello\"\x7d\x7d"
      = .ok "hello"
    ∧ executeAct [] "\x7b\"action\": \"respond\", \"args\": \x7b\"x\": \"y\"\x7d\x7d"
      = .ok "" := by
  constructor
  · exact (claim_C6_respond_returns_message []
      "\x7b\"action\": \"respond\", \"args\": \x7b\"message\": \"hello\"\x7d\x7d"
      [("action", Json.str "respond"), ("args", Json.obj [("message", Json.str "hello")])]
      [("message", Json.str "hello")] "hello" rfl rfl rfl).1 rfl
  · exact (claim_C6_respond_returns_message []
      "\x7b\"action\": \"respond\", \"args\": \x7b\"x\": \"y\"\x7d\x7d"
      [("action", Json.str "respond"), ("args", Json.obj [("x", Json.str "y")])]
      [("x", Json.str "y")] "hello" rfl rfl rfl).2 rfl

/-- C7: the claim pins three evaluations of `parse_natural_time`, but
no call of the parser is program behaviour: in a conditional group
CPython `re` accepts only a group number or name, so the `HHMM`
pattern of line 88 fails to compile with `bad character in group
name`, and the module-level `re.compile` makes every import of
`bantu_os.agents.scheduling_agent` raise `re.error`.  The embedded
compilation checks show the `AMPM` pattern of line 87 compiles, the
failure is exactly at `HHMM` (the other two patterns also compile),
and the import fails with that message, so the pinned return values
never happen. -/
theorem claim_C7_parser_import_raises :
    reCompileCheck ampmPatternSrc = .ok ()
    ∧ reCompileCheck hhmmPatternSrc = .error hhmmCompileErr
    ∧ reCompileCheck inXPatternSrc = .ok ()
    ∧ reCompileCheck dateTimePatternSrc = .ok ()
    ∧ schedulingAgentImport = .error hhmmCompileErr :=
  ⟨rfl, rfl, rfl, rfl, rfl⟩

/-- C8: memory failures never abort a generation turn.  With memory
configured: a failing retrieval produces the same turn as an empty
retrieval; the two store outcomes never influence the result; and even
with retrieval and both stores failing the turn returns `.ok` of the
model text on the memory-free message list. -/
theorem claim_C8_memory_failures_never_abort (text : String) (sp : Option String)
    (ctx : List ChatMessage) (e e1 e2 : String)
    (r : Except String (List SearchResult))
    (s1 s2 s3 s4 : Except String String) (llm : List ChatMessage → String) :
    processInput text sp ctx true (.error e) s1 s2 llm
      = processInput text sp ctx true (.ok []) s1 s2 llm
    ∧ processInput text sp ctx true r s1 s2 llm
      = processInput text sp ctx true r s3 s4 llm
    ∧ processInput text sp ctx true (.error e) (.error e1) (.error e2) llm
      = .ok (llm (baseMessages text sp ctx))
    ∧ (processInput text sp ctx true r s1 s2 llm).isOk = true :=
  ⟨rfl, rfl, rfl, rfl⟩

/-- C9: storing an embedding whose length differs from the configured
dimension fails with the dimension-mismatch `ValueError` and leaves the
stored state exactly as it was — at the `Memory.store_memory` check and
at the `VectorDB.add` check. -/
theorem claim_C9_dimension_mismatch_rejected (mem : Memory) (q : String) (emb : List ℚ)
    (md : Option (List (String × Json)))
    (db : VectorDB) (v : List ℚ) (md2 : List (String × Json)) (t2 : Option String)
    (h1 : emb.length ≠ mem.dim) (h2 : v.length ≠ db.dim) :
    Memory.storeMemory mem q emb md
      = (.error ("Embedding dim " ++ toString emb.length
          ++ " != expected " ++ toString mem.dim), mem)
    ∧ VectorDB.add db v md2 t2
      = (.error ("Vector dimension must be " ++ toString db.dim), db) := by
  constructor
  · simp [Memory.storeMemory, h1]
  · simp [VectorDB.add, h2]

/-- C9 witness: a 3-component embedding against a 2-dimensional store. -/
theorem claim_C9_witness :
    ([1, 2, 3] : List ℚ).length ≠ (2 : Nat)
    ∧ Memory.storeMemory ⟨⟨2, []⟩, 2⟩ "q" [1, 2, 3] none
      = (.error "Embedding dim 3 != expected 2", ⟨⟨2, []⟩, 2⟩)
    ∧ VectorDB.add ⟨2, []⟩ [1] [] none
      = (.error "Vector dimension must be 2", ⟨2, []⟩) := by
  refine ⟨by decide, ?_, ?_⟩
  · exact (claim_C9_dimension_mismatch_rejected ⟨⟨2, []⟩, 2⟩ "q" [1, 2, 3] none
      ⟨2, []⟩ [1] [] none (by decide) (by decide)).1
  · exact (claim_C9_dimension_mismatch_rejected ⟨⟨2, []⟩, 2⟩ "q" [1, 2, 3] none
      ⟨2, []⟩ [1] [] none (by decide) (by decide)).2

/-- C10: the claim says inputs in the today/at class with no time
mention make `parse_natural_time` fall through and return none; but
the branch can never execute: the defining module never loads (the
invalid `HHMM` pattern of line 88 raises `re.error` at import), so
every invocation of the parser, whatever its body would compute,
errors with the `re.error` message instead of returning `None` or any
other value. -/
theorem claim_C10_parser_never_callable :
    schedulingAgentImport.isOk = false
    ∧ ∀ body : Unit → Except String (Option PyDateTime),
        importThen body = .error hhmmCompileErr :=
  ⟨rfl, fun _ => rfl⟩

end Bantu
